import Mathlib

/-!
Verification of the operator-recovery reimbursement calculator.

The source program (src/index.ts) computes, for each on-chain slashing event,
how the slashed amount is reimbursed to the operator's owner and delegators,
using BigNumber.js arithmetic.  This file gives a shallow embedding of the
program's core functions and proves or refutes the specification claims.

Numeric model: BigNumber.js values are embedded as exact rationals.  Addition,
subtraction and multiplication in BigNumber.js are exact; division rounds the
exact quotient to `DECIMAL_PLACES` (default 20) decimal places using
`ROUNDING_MODE` 4 (round half away from zero), and `dividedToIntegerBy(1)`
truncates toward zero.  The source never changes the BigNumber configuration,
so those defaults are what the embedding models.  Division by zero yields
Infinity or NaN in BigNumber.js, which the rational embedding cannot
represent; theorems therefore carry positivity hypotheses on divisors.
-/

namespace OperatorRecovery

/-- BigNumber.js default `DECIMAL_PLACES` (results of division are rounded to
this many decimal places). -/
def BN_DECIMAL_PLACES : ℕ := 20

/-- Rounding applied by BigNumber.js to the result of a division:
round to 20 decimal places, half away from zero (`ROUND_HALF_UP`, mode 4). -/
def bnRound (q : ℚ) : ℚ :=
  if 0 ≤ q then (⌊q * 10 ^ BN_DECIMAL_PLACES + 1 / 2⌋ : ℚ) / 10 ^ BN_DECIMAL_PLACES
  else -((⌊-q * 10 ^ BN_DECIMAL_PLACES + 1 / 2⌋ : ℚ) / 10 ^ BN_DECIMAL_PLACES)

/-- BigNumber.js `a.div(b)` / `a.dividedBy(b)`: exact quotient rounded to 20
decimal places (defined for `b ≠ 0`; the `b = 0` case is outside the model). -/
def bnDiv (a b : ℚ) : ℚ := bnRound (a / b)

/-- BigNumber.js `q.dividedToIntegerBy(1)`: the integer part of `q`,
truncation toward zero. -/
def bnDividedToIntegerBy1 (q : ℚ) : ℚ :=
  if 0 ≤ q then (⌊q⌋ : ℚ) else (⌈q⌉ : ℚ)

/-- A slashing event as returned by the staking subgraph (src/index.ts
`SlashingEvent`); `amount` and `date` are decimal strings in the source,
parsed to integers before use. -/
structure SlashingEvent where
  amount : ℕ
  date : ℕ
  operatorId : String
deriving DecidableEq, Repr

instance : Inhabited SlashingEvent := ⟨⟨0, 0, ""⟩⟩

/-- One delegation inside an operator snapshot (src/index.ts
`OperatorAndDelegations.delegations` entries). -/
structure Delegation where
  delegatorId : String
  operatorTokenBalanceWei : ℕ
deriving DecidableEq, Repr

/-- Operator state at a block (src/index.ts `OperatorAndDelegations`).  The
subgraph also returns an `exchangeRate` string, but the program recomputes the
rate from `valueWithoutEarnings` and `operatorTokenTotalSupplyWei` and never
reads the fetched field, so it is omitted here. -/
structure OperatorAndDelegations where
  operatorTokenTotalSupplyWei : ℕ
  owner : String
  valueWithoutEarnings : ℕ
  delegations : List Delegation
deriving DecidableEq, Repr

/-- A reimbursement line (src/index.ts `Reimbursement`); the amount is a
BigNumber in the source, hence a rational here. -/
structure Reimbursement where
  recipient : String
  amount : ℚ
deriving DecidableEq, Repr

/-- A block record from the blocks subgraph (src/index.ts
`getBlockAtTimestamp` query result items). -/
structure Block where
  id : String
  number : ℕ
  timestamp : ℕ
deriving DecidableEq, Repr

/-- The distinct fatal errors thrown by `calculateReimbursements`:
"Operator doesn't have delegations", "Owner's delegation not found", and
"Reimbursements don't match slashed amount" (the last carries the computed
total, the slashed amount and the reimbursement list, which the source logs
before throwing). -/
inductive AllocError where
  | noDelegations
  | ownerDelegationMissing
  | reimbursementMismatch (total slashed : ℚ) (rs : List Reimbursement)
deriving DecidableEq, Repr

/-- The fatal error thrown by `getBlockAtTimestamp` when the block lookup
returns a number of blocks different from one; it carries the raw result. -/
inductive BlockLookupError where
  | ambiguousBlock (blocks : List Block)
deriving DecidableEq, Repr

/-- src/index.ts `getBlockAtTimestamp`, given the list of blocks returned by
the blocks subgraph for the exact-timestamp query: succeeds with the unique
block's number iff exactly one block matched, otherwise throws. -/
def getBlockAtTimestamp (blocks : List Block) : Except BlockLookupError ℕ :=
  match blocks with
  | [b] => .ok b.number
  | bs => .error (.ambiguousBlock bs)

/-- src/index.ts line 158: `exchangeRate = valueWithoutEarningsWei.div(totalOperatorTokensWei)`. -/
def exchangeRate (op : OperatorAndDelegations) : ℚ :=
  bnDiv (op.valueWithoutEarnings : ℚ) (op.operatorTokenTotalSupplyWei : ℚ)

/-- src/index.ts line 159:
`slashedAmountDataWei.dividedBy(exchangeRate).dividedToIntegerBy(1)`. -/
def slashedAmountInOperatorTokensWei (ev : SlashingEvent) (op : OperatorAndDelegations) : ℚ :=
  bnDividedToIntegerBy1 (bnDiv (ev.amount : ℚ) (exchangeRate op))

/-- src/index.ts line 182:
`ownerOperatorTokensWei.multipliedBy(exchangeRate).dividedToIntegerBy(1)`. -/
def ownerSlashedAmountDataWei (op : OperatorAndDelegations) (ownerDelegation : Delegation) : ℚ :=
  bnDividedToIntegerBy1 ((ownerDelegation.operatorTokenBalanceWei : ℚ) * exchangeRate op)

/-- src/index.ts lines 194-196: a non-owner delegation's reimbursement,
`share = balance.div(pool)` then `share.multipliedBy(remaining).dividedToIntegerBy(1)`,
where `pool = totalSupply - ownerBalance` and `remaining = slashed - ownerReimbursement`. -/
def delegatorShareDataWei (ev : SlashingEvent) (op : OperatorAndDelegations)
    (ownerDelegation : Delegation) (d : Delegation) : ℚ :=
  bnDividedToIntegerBy1
    (bnDiv (d.operatorTokenBalanceWei : ℚ)
        ((op.operatorTokenTotalSupplyWei : ℚ) - (ownerDelegation.operatorTokenBalanceWei : ℚ)) *
      ((ev.amount : ℚ) - ownerSlashedAmountDataWei op ownerDelegation))

/-- src/index.ts lines 173-202: the reimbursement list as pushed, before the
conservation check and the final sort.  Full-absorption branch when the
owner's operator-token balance is at least `slashedAmountInOperatorTokensWei`,
otherwise the owner entry followed by one entry per non-owner delegation in
snapshot order. -/
def rawReimbursements (ev : SlashingEvent) (op : OperatorAndDelegations)
    (ownerDelegation : Delegation) : List Reimbursement :=
  if slashedAmountInOperatorTokensWei ev op ≤ (ownerDelegation.operatorTokenBalanceWei : ℚ) then
    [⟨op.owner, (ev.amount : ℚ)⟩]
  else
    ⟨op.owner, ownerSlashedAmountDataWei op ownerDelegation⟩ ::
      (op.delegations.filter (fun d => d.delegatorId != op.owner)).map
        (fun d => ⟨d.delegatorId, delegatorShareDataWei ev op ownerDelegation d⟩)

/-- src/index.ts lines 205-206: sum of the pushed reimbursement amounts. -/
def reimbursementsTotal (rs : List Reimbursement) : ℚ :=
  (rs.map Reimbursement.amount).sum

/-- src/index.ts line 209: the fixed conservation tolerance, 10000 wei. -/
def TOLERANCE : ℚ := 10000

/-- The comparator of the final sort, src/index.ts line 216:
`(a, b) => a.recipient.localeCompare(b.recipient)`, i.e. ordering
reimbursements by recipient identifier. -/
def Reimbursement.le (a b : Reimbursement) : Prop := a.recipient ≤ b.recipient

instance : DecidableRel Reimbursement.le := fun a b =>
  decidable_of_iff (a.recipient.data ≤ b.recipient.data)
    (by rw [show a.recipient.data = a.recipient.toList from rfl,
          show b.recipient.data = b.recipient.toList from rfl, ← String.le_iff_toList_le]
        exact Iff.rfl)

instance : IsTotal Reimbursement Reimbursement.le :=
  ⟨fun a b => le_total a.recipient b.recipient⟩

instance : IsTrans Reimbursement Reimbursement.le :=
  ⟨fun _ _ _ h h' => le_trans h h'⟩

/-- src/index.ts `calculateReimbursements`, with the data already fetched: the
event's operator snapshot is passed in as `op` (the source reads it at the
block preceding the slashing timestamp).  Throws are modelled as `Except.error`. -/
def calculateReimbursements (ev : SlashingEvent) (op : OperatorAndDelegations) :
    Except AllocError (List Reimbursement) :=
  if op.delegations.isEmpty then .error .noDelegations
  else
    match op.delegations.find? (fun d => d.delegatorId == op.owner) with
    | none => .error .ownerDelegationMissing
    | some ownerDelegation =>
      if TOLERANCE <
          |reimbursementsTotal (rawReimbursements ev op ownerDelegation) - (ev.amount : ℚ)| then
        .error (.reimbursementMismatch
          (reimbursementsTotal (rawReimbursements ev op ownerDelegation))
          ((ev.amount : ℚ))
          (rawReimbursements ev op ownerDelegation))
      else
        .ok ((rawReimbursements ev op ownerDelegation).insertionSort Reimbursement.le)

/-- src/index.ts line 16: the pagination page size. -/
def PAGE_SIZE : ℕ := 1000

/-- src/index.ts line 14: the minimum slashing amount kept by the filter. -/
def MIN_SLASHING_WEI : ℕ := 0

/-- src/index.ts lines 110-119: the pagination loop of `getSlashingEvents`.
`page s` stands for the subgraph answer to the page query with lower date
bound `s` (the fixed upper bound is part of the page function).  The loop is
modelled with explicit fuel; `none` means the fuel ran out before the loop
exited.  After a full page the next lower bound is the last returned event's
date plus one (line 117). -/
def getSlashingEventsLoop (page : ℕ → List SlashingEvent) :
    ℕ → ℕ → Option (List SlashingEvent)
  | 0, _ => none
  | fuel + 1, currentStart =>
    let pageResults := page currentStart
    if pageResults.length < PAGE_SIZE then
      some pageResults
    else
      match getSlashingEventsLoop page fuel ((pageResults.getLastD default).date + 1) with
      | none => none
      | some rest => some (pageResults ++ rest)

/-- src/index.ts `getSlashingEvents`: run the pagination loop from the start
timestamp, then filter out events whose amount is below the minimum
(`new BigNumber(e.amount).gte(min)` keeps amounts that are at least the
minimum).  The source hardwires `minWei = MIN_SLASHING_WEI`; the filter bound
is a parameter here so that its effect can be stated. -/
def getSlashingEvents (page : ℕ → List SlashingEvent) (timestampStartSec : ℕ)
    (minWei : ℕ) (fuel : ℕ) : Option (List SlashingEvent) :=
  (getSlashingEventsLoop page fuel timestampStartSec).map
    (fun result => result.filter (fun e => minWei ≤ e.amount))

/-- A synthetic event universe for the pagination claims: one event per second
at dates `0, 1, ..., 2998` (so `2 * PAGE_SIZE + (PAGE_SIZE - 1)` events). -/
def syntheticEvent (i : ℕ) : SlashingEvent := ⟨1, i, "operator1"⟩

/-- Number of events served by the synthetic source. -/
def SYNTHETIC_COUNT : ℕ := 2999

/-- A synthetic page function answering date-ordered page queries over the
universe `syntheticEvent 0 .. syntheticEvent 2998`: the first `PAGE_SIZE`
events with date at least `s`.  It returns exactly `PAGE_SIZE`, `PAGE_SIZE`,
`PAGE_SIZE - 1` items for the three lower bounds the loop actually queries. -/
def syntheticPage (s : ℕ) : List SlashingEvent :=
  (List.range' s (min PAGE_SIZE (SYNTHETIC_COUNT - s))).map syntheticEvent

/-- The assumptions on an event source that the pagination loop relies on
(each page holds at most `PAGE_SIZE` events, sorted ascending by date, every
date between the page's lower bound and the fixed end time). -/
def ConformingSource (page : ℕ → List SlashingEvent) (timestampEndSec : ℕ) : Prop :=
  ∀ s, (page s).length ≤ PAGE_SIZE ∧
    (∀ e ∈ page s, s ≤ e.date ∧ e.date ≤ timestampEndSec) ∧
    (page s).Sorted (fun a b => a.date ≤ b.date)

/-! ### Helper lemmas about the BigNumber arithmetic model -/

lemma bnRound_eq {q : ℚ} {n : ℤ} (hq : 0 ≤ q)
    (h₁ : (n : ℚ) ≤ q * 10 ^ 20 + 1 / 2) (h₂ : q * 10 ^ 20 + 1 / 2 < (n : ℚ) + 1) :
    bnRound q = (n : ℚ) / 10 ^ 20 := by
  have hfl : ⌊q * 10 ^ BN_DECIMAL_PLACES + 1 / 2⌋ = n := by
    rw [show BN_DECIMAL_PLACES = 20 from rfl]
    exact Int.floor_eq_iff.mpr ⟨h₁, by exact_mod_cast h₂⟩
  rw [bnRound, if_pos hq, hfl, show BN_DECIMAL_PLACES = 20 from rfl]

lemma bnDividedToIntegerBy1_eq {q : ℚ} {n : ℤ} (hq : 0 ≤ q)
    (h₁ : (n : ℚ) ≤ q) (h₂ : q < (n : ℚ) + 1) :
    bnDividedToIntegerBy1 q = (n : ℚ) := by
  rw [bnDividedToIntegerBy1, if_pos hq, Int.floor_eq_iff.mpr ⟨h₁, by exact_mod_cast h₂⟩]

lemma bnRound_nonneg {q : ℚ} (hq : 0 ≤ q) : 0 ≤ bnRound q := by
  rw [bnRound, if_pos hq]
  have : (0 : ℤ) ≤ ⌊q * 10 ^ BN_DECIMAL_PLACES + 1 / 2⌋ := Int.floor_nonneg.mpr (by positivity)
  positivity

lemma bnRound_le {q : ℚ} (hq : 0 ≤ q) : bnRound q ≤ q + 1 / (2 * 10 ^ 20) := by
  rw [bnRound, if_pos hq, show BN_DECIMAL_PLACES = 20 from rfl]
  have h := Int.floor_le (q * 10 ^ 20 + 1 / 2)
  rw [div_le_iff₀ (by positivity : (0:ℚ) < 10 ^ 20)]
  calc (⌊q * 10 ^ 20 + 1 / 2⌋ : ℚ) ≤ q * 10 ^ 20 + 1 / 2 := h
    _ = (q + 1 / (2 * 10 ^ 20)) * 10 ^ 20 := by ring

lemma bnDiv_nonneg {a b : ℚ} (ha : 0 ≤ a) (hb : 0 ≤ b) : 0 ≤ bnDiv a b :=
  bnRound_nonneg (div_nonneg ha hb)

lemma bnDividedToIntegerBy1_nonneg {q : ℚ} (hq : 0 ≤ q) : 0 ≤ bnDividedToIntegerBy1 q := by
  rw [bnDividedToIntegerBy1, if_pos hq]
  exact_mod_cast Int.floor_nonneg.mpr hq

lemma bnDividedToIntegerBy1_le {q : ℚ} (hq : 0 ≤ q) : bnDividedToIntegerBy1 q ≤ q := by
  rw [bnDividedToIntegerBy1, if_pos hq]
  exact Int.floor_le q

lemma bnDividedToIntegerBy1_isNat {q : ℚ} (hq : 0 ≤ q) :
    ∃ n : ℕ, bnDividedToIntegerBy1 q = (n : ℚ) := by
  refine ⟨⌊q⌋.toNat, ?_⟩
  rw [bnDividedToIntegerBy1, if_pos hq]
  exact_mod_cast (Int.toNat_of_nonneg (Int.floor_nonneg.mpr hq)).symm

lemma exchangeRate_nonneg (op : OperatorAndDelegations) : 0 ≤ exchangeRate op :=
  bnDiv_nonneg (by positivity) (by positivity)

/-- Evaluation rule turning a rounded BigNumber division of rational literals
into natural-number arithmetic: round-half-up of `(a/b) / (c/d)` at 20
decimal places is the integer `(2*a*d*10^20 + b*c) / (2*b*c)` (truncating
natural division) scaled back down by `10^20`. -/
lemma bnDiv_eval (a b c d : ℕ) (hb : 0 < b) (hc : 0 < c) (hd : 0 < d) :
    bnDiv ((a : ℚ) / (b : ℚ)) ((c : ℚ) / (d : ℚ)) =
      (((2 * a * d * 10 ^ 20 + b * c) / (2 * b * c) : ℕ) : ℚ) / (10 ^ 20 : ℚ) := by
  have hb' : (0:ℚ) < b := by exact_mod_cast hb
  have hc' : (0:ℚ) < c := by exact_mod_cast hc
  have hd' : (0:ℚ) < d := by exact_mod_cast hd
  have hq : (0:ℚ) ≤ (a : ℚ) / b / ((c : ℚ) / d) := by positivity
  rw [bnDiv, bnRound, if_pos hq]
  have harg : (a : ℚ) / b / ((c : ℚ) / d) * 10 ^ BN_DECIMAL_PLACES + 1 / 2 =
      ((2 * a * d * 10 ^ 20 + b * c : ℕ) : ℚ) / ((2 * b * c : ℕ) : ℚ) := by
    rw [show BN_DECIMAL_PLACES = 20 from rfl]
    push_cast
    field_simp
    ring
  rw [harg, Rat.floor_natCast_div_natCast]
  rw [show BN_DECIMAL_PLACES = 20 from rfl]
  rfl

/-- Special case of `bnDiv_eval` for two natural operands. -/
lemma bnDiv_natCast_eval (a c : ℕ) (hc : 0 < c) :
    bnDiv (a : ℚ) (c : ℚ) =
      (((2 * a * 10 ^ 20 + c) / (2 * c) : ℕ) : ℚ) / (10 ^ 20 : ℚ) := by
  have h := bnDiv_eval a 1 c 1 one_pos hc one_pos
  simpa using h

/-- Evaluation rule for truncation of a nonnegative rational literal. -/
lemma bnDividedToIntegerBy1_eval (m k : ℕ) :
    bnDividedToIntegerBy1 ((m : ℚ) / (k : ℚ)) = ((m / k : ℕ) : ℚ) := by
  rw [bnDividedToIntegerBy1, if_pos (by positivity), Rat.floor_natCast_div_natCast]
  rfl

/-- In the shared branch the owner's reimbursement is strictly below the
slashed amount (so the remaining value to distribute is positive); this uses
the branch condition and the fact that rounding a division result adds at
most half an ulp. -/
lemma ownerSlashed_lt_slashed (ev : SlashingEvent) (op : OperatorAndDelegations)
    (od : Delegation) (hrate : 0 < exchangeRate op)
    (hshared : (od.operatorTokenBalanceWei : ℚ) < slashedAmountInOperatorTokensWei ev op) :
    ownerSlashedAmountDataWei op od < (ev.amount : ℚ) := by
  set r := exchangeRate op with hr
  set B := (od.operatorTokenBalanceWei : ℚ) with hB
  have hq : (0 : ℚ) ≤ (ev.amount : ℚ) / r := div_nonneg (by positivity) hrate.le
  set y := bnRound ((ev.amount : ℚ) / r) with hy
  have hy0 : 0 ≤ y := bnRound_nonneg hq
  have hsio : slashedAmountInOperatorTokensWei ev op = (⌊y⌋ : ℚ) := by
    rw [slashedAmountInOperatorTokensWei, bnDiv, ← hr, ← hy, bnDividedToIntegerBy1, if_pos hy0]
  rw [hsio] at hshared
  have hint : (od.operatorTokenBalanceWei : ℤ) + 1 ≤ ⌊y⌋ := by
    rw [hB] at hshared
    have : (od.operatorTokenBalanceWei : ℤ) < ⌊y⌋ := by exact_mod_cast hshared
    omega
  have hB1 : B + 1 ≤ y := by
    calc B + 1 = (((od.operatorTokenBalanceWei : ℤ) + 1 : ℤ) : ℚ) := by push_cast; ring
      _ ≤ (⌊y⌋ : ℚ) := by exact_mod_cast hint
      _ ≤ y := Int.floor_le y
  have hyle : y ≤ (ev.amount : ℚ) / r + 1 / (2 * 10 ^ 20) := bnRound_le hq
  have hkey : B ≤ (ev.amount : ℚ) / r - (1 - 1 / (2 * 10 ^ 20)) := by linarith
  have hmul : B * r ≤ ((ev.amount : ℚ) / r - (1 - 1 / (2 * 10 ^ 20))) * r :=
    mul_le_mul_of_nonneg_right hkey hrate.le
  rw [sub_mul, div_mul_cancel₀ _ hrate.ne'] at hmul
  have hpos : 0 < (1 - 1 / (2 * 10 ^ 20 : ℚ)) * r := mul_pos (by norm_num) hrate
  have hBr : B * r < (ev.amount : ℚ) := by linarith
  have hle : ownerSlashedAmountDataWei op od ≤ B * r := by
    rw [ownerSlashedAmountDataWei, ← hr, ← hB]
    exact bnDividedToIntegerBy1_le (mul_nonneg (by positivity) hrate.le)
  linarith

/-! ### Helper lemmas about lists -/

lemma getLastD_mem {α : Type} (l : List α) (d : α) (h : l ≠ []) : l.getLastD d ∈ l := by
  induction l generalizing d with
  | nil => exact absurd rfl h
  | cons a t ih =>
    rw [List.getLastD_cons]
    cases t with
    | nil => simp
    | cons b t' => exact List.mem_cons_of_mem a (ih a (by simp))

lemma getLastD_map_range' {α : Type} (f : ℕ → α) (d : α) :
    ∀ (n s : ℕ), 0 < n → ((List.range' s n).map f).getLastD d = f (s + n - 1) := by
  intro n
  induction n with
  | zero => intro s h; omega
  | succ n ih =>
    intro s _
    rw [List.range'_succ, List.map_cons, List.getLastD_cons]
    cases n with
    | zero => simp
    | succ m =>
      rw [show ((List.range' (s + 1) (m + 1)).map f).getLastD (f s) =
            f (s + 1 + (m + 1) - 1) from ih (s + 1) (Nat.succ_pos m)]
      congr 1
      omega

lemma find?_beq_of_nodup_map {l : List Delegation}
    (hn : (l.map (fun d => d.delegatorId)).Nodup) {d : Delegation} (hd : d ∈ l)
    (key : String) (hk : d.delegatorId = key) :
    l.find? (fun x => x.delegatorId == key) = some d := by
  induction l with
  | nil => cases hd
  | cons a t ih =>
    rw [List.map_cons, List.nodup_cons] at hn
    rcases List.mem_cons.mp hd with rfl | hdt
    · exact List.find?_cons_of_pos _ (by simp [hk])
    · have hne : ¬ a.delegatorId = key := fun hak =>
        hn.1 (by rw [hak, ← hk]; exact List.mem_map_of_mem _ hdt)
      rw [List.find?_cons_of_neg _ (by simp [hne])]
      exact ih hn.2 hdt

lemma find?_eq_of_perm_of_nodup {l₁ l₂ : List Delegation} (h : l₁.Perm l₂)
    (hn : (l₁.map (fun d => d.delegatorId)).Nodup) (key : String) :
    l₁.find? (fun d => d.delegatorId == key) = l₂.find? (fun d => d.delegatorId == key) := by
  cases h₁ : l₁.find? (fun d => d.delegatorId == key) with
  | none =>
    symm
    rw [List.find?_eq_none] at h₁ ⊢
    exact fun x hx => h₁ x (h.mem_iff.mpr hx)
  | some a =>
    have hpa := List.find?_some h₁
    have hma := List.mem_of_find?_eq_some h₁
    have hn₂ : (l₂.map (fun d => d.delegatorId)).Nodup := ((h.map _).nodup_iff).mp hn
    exact (find?_beq_of_nodup_map hn₂ (h.mem_iff.mp hma) key (by simpa using hpa)).symm

lemma sorted_strict_of_sorted_nodup {l : List Reimbursement}
    (hs : l.Sorted Reimbursement.le) (hn : (l.map (fun r => r.recipient)).Nodup) :
    l.Pairwise (fun a b => a.recipient < b.recipient) := by
  have hp : l.Pairwise (fun a b => a.recipient ≠ b.recipient) := List.pairwise_map.mp hn
  exact (List.Pairwise.and hs hp).imp (fun h => lt_of_le_of_ne h.1 h.2)

lemma sortedLists_eq {l₁ l₂ : List Reimbursement} (hp : l₁.Perm l₂)
    (hs₁ : l₁.Sorted Reimbursement.le) (hs₂ : l₂.Sorted Reimbursement.le)
    (hn : (l₁.map (fun r => r.recipient)).Nodup) : l₁ = l₂ := by
  have hn₂ : (l₂.map (fun r => r.recipient)).Nodup := ((hp.map _).nodup_iff).mp hn
  have h₁ := sorted_strict_of_sorted_nodup hs₁ hn
  have h₂ := sorted_strict_of_sorted_nodup hs₂ hn₂
  haveI : IsAntisymm Reimbursement (fun a b => a.recipient < b.recipient) :=
    ⟨fun a b h h' => absurd h' (lt_asymm h)⟩
  exact List.eq_of_perm_of_sorted hp h₁ h₂

/-! ### Characterizations of `calculateReimbursements` -/

lemma calculateReimbursements_eq_ok_iff (ev : SlashingEvent) (op : OperatorAndDelegations)
    (rs : List Reimbursement) :
    calculateReimbursements ev op = .ok rs ↔
      ∃ od, op.delegations.isEmpty = false ∧
        op.delegations.find? (fun d => d.delegatorId == op.owner) = some od ∧
        |reimbursementsTotal (rawReimbursements ev op od) - (ev.amount : ℚ)| ≤ TOLERANCE ∧
        rs = (rawReimbursements ev op od).insertionSort Reimbursement.le := by
  unfold calculateReimbursements
  cases hE : op.delegations.isEmpty with
  | true => simp
  | false =>
    cases hF : op.delegations.find? (fun d => d.delegatorId == op.owner) with
    | none => simp
    | some od =>
      by_cases hT : TOLERANCE <
          |reimbursementsTotal (rawReimbursements ev op od) - (ev.amount : ℚ)|
      · simp only [if_pos hT]
        constructor
        · intro h; cases h
        · rintro ⟨od', -, hod', hle, -⟩
          cases hod'
          exact absurd hle (not_le.mpr hT)
      · simp only [if_neg hT]
        constructor
        · intro h
          cases h
          exact ⟨od, by simp, by simp, not_lt.mp hT, by simp⟩
        · rintro ⟨od', -, hod', -, rfl⟩
          cases hod'
          rfl

lemma calculateReimbursements_mismatch_iff (ev : SlashingEvent) (op : OperatorAndDelegations)
    (od : Delegation) (hE : op.delegations.isEmpty = false)
    (hF : op.delegations.find? (fun d => d.delegatorId == op.owner) = some od) :
    calculateReimbursements ev op =
        .error (.reimbursementMismatch (reimbursementsTotal (rawReimbursements ev op od))
          ((ev.amount : ℚ)) (rawReimbursements ev op od)) ↔
      TOLERANCE < |reimbursementsTotal (rawReimbursements ev op od) - (ev.amount : ℚ)| := by
  unfold calculateReimbursements
  rw [hE, hF]
  by_cases hT : TOLERANCE < |reimbursementsTotal (rawReimbursements ev op od) - (ev.amount : ℚ)|
  · simp [hT]
  · simp [hT]

/-- Rounding a division by one returns the (integral) dividend unchanged. -/
lemma bnDiv_one (a : ℕ) : bnDiv (a : ℚ) 1 = (a : ℚ) := by
  rw [bnDiv, div_one, bnRound, if_pos (by positivity)]
  have hfl : ⌊(a : ℚ) * 10 ^ BN_DECIMAL_PLACES + 1 / 2⌋ = (a : ℤ) * 10 ^ 20 := by
    rw [show BN_DECIMAL_PLACES = 20 from rfl, Int.floor_eq_iff]
    constructor
    · push_cast
      linarith
    · push_cast
      linarith
  rw [hfl, show BN_DECIMAL_PLACES = 20 from rfl]
  push_cast
  rw [mul_div_assoc]
  norm_num

/-- Truncation of an integral value returns it unchanged. -/
lemma bnDividedToIntegerBy1_natCast (a : ℕ) : bnDividedToIntegerBy1 (a : ℚ) = (a : ℚ) := by
  rw [bnDividedToIntegerBy1, if_pos (by positivity)]
  norm_num

/-- Evaluation rule for `bnDiv` at a concrete quotient: supply the numerator
`n` of the rounded result (over `10 ^ 20`) together with the floor bounds. -/
lemma bnDiv_eq_of (a b : ℚ) (n : ℕ) (hab : 0 ≤ a / b)
    (h₁ : (n : ℚ) ≤ a / b * 10 ^ 20 + 1 / 2) (h₂ : a / b * 10 ^ 20 + 1 / 2 < (n : ℚ) + 1) :
    bnDiv a b = (n : ℚ) / 10 ^ 20 := by
  rw [bnDiv, bnRound_eq (n := (n : ℤ)) hab (by exact_mod_cast h₁) (by exact_mod_cast h₂)]
  norm_num

/-- Evaluation rule for `bnDividedToIntegerBy1` at a concrete nonnegative
argument: supply the truncated value `n` together with the floor bounds. -/
lemma bnTrunc_eq (q : ℚ) (n : ℕ) (h₁ : (n : ℚ) ≤ q) (h₂ : q < (n : ℚ) + 1) :
    bnDividedToIntegerBy1 q = (n : ℚ) := by
  have hq : 0 ≤ q := le_trans (by positivity) h₁
  rw [bnDividedToIntegerBy1_eq (n := (n : ℤ)) hq (by exact_mod_cast h₁)
    (by exact_mod_cast h₂)]
  norm_num

/-! ### Concrete example inputs used by witnesses and counterexamples -/

/-- A slashing event of 5 wei for the full-absorption example. -/
def fullAbsorbEvent : SlashingEvent := ⟨5, 0, "op1"⟩

/-- A snapshot whose owner holds the whole supply (rate 1:1), absorbing a
5-wei slash entirely. -/
def fullAbsorbOp : OperatorAndDelegations := ⟨10, "a", 10, [⟨"a", 10⟩]⟩

lemma fullAbsorb_rate : exchangeRate fullAbsorbOp = 1 := by
  have h : exchangeRate fullAbsorbOp = bnDiv ((10 : ℕ) : ℚ) ((10 : ℕ) : ℚ) := rfl
  rw [h, bnDiv_natCast_eval 10 10 (by norm_num)]
  norm_num

lemma fullAbsorb_sio : slashedAmountInOperatorTokensWei fullAbsorbEvent fullAbsorbOp = 5 := by
  have h : slashedAmountInOperatorTokensWei fullAbsorbEvent fullAbsorbOp =
      bnDividedToIntegerBy1 (bnDiv ((5 : ℕ) : ℚ) (exchangeRate fullAbsorbOp)) := rfl
  rw [h, fullAbsorb_rate, bnDiv_one 5, bnDividedToIntegerBy1_natCast]
  norm_num

lemma fullAbsorb_raw :
    rawReimbursements fullAbsorbEvent fullAbsorbOp ⟨"a", 10⟩ = [⟨"a", (5 : ℚ)⟩] := by
  rw [rawReimbursements, if_pos (by rw [fullAbsorb_sio]; norm_num)]
  norm_num [fullAbsorbOp, fullAbsorbEvent]

/-- A slashing event of 33333333333333333333 wei, sitting exactly on the
full-absorption boundary when the exchange rate is the exact rational 1/3. -/
def boundaryEvent : SlashingEvent := ⟨33333333333333333333, 0, "op"⟩

/-- A snapshot with supply 3e20, value 1e20 (exact rate 1/3, which rounds at
20 decimal places), owner balance 1e20 - 1 and one delegator holding the
rest. -/
def boundaryOp : OperatorAndDelegations :=
  ⟨300000000000000000000, "a", 100000000000000000000,
    [⟨"a", 99999999999999999999⟩, ⟨"b", 200000000000000000001⟩]⟩

lemma boundary_rate :
    exchangeRate boundaryOp = ((33333333333333333333 : ℕ) : ℚ) / 10 ^ 20 := by
  have h : exchangeRate boundaryOp =
      bnDiv ((100000000000000000000 : ℕ) : ℚ) ((300000000000000000000 : ℕ) : ℚ) := rfl
  rw [h, bnDiv_eq_of _ _ 33333333333333333333 (by norm_num) (by norm_num) (by norm_num)]

lemma boundary_sio :
    slashedAmountInOperatorTokensWei boundaryEvent boundaryOp = 10 ^ 20 := by
  have h : slashedAmountInOperatorTokensWei boundaryEvent boundaryOp =
      bnDividedToIntegerBy1
        (bnDiv ((33333333333333333333 : ℕ) : ℚ) (exchangeRate boundaryOp)) := rfl
  rw [h, boundary_rate, bnDiv_eq_of _ _ (10 ^ 40) (by norm_num) (by norm_num) (by norm_num),
    bnTrunc_eq _ (10 ^ 20) (by norm_num) (by norm_num)]
  norm_num

lemma boundary_owner :
    ownerSlashedAmountDataWei boundaryOp ⟨"a", 99999999999999999999⟩ =
      33333333333333333332 := by
  have h : ownerSlashedAmountDataWei boundaryOp ⟨"a", 99999999999999999999⟩ =
      bnDividedToIntegerBy1 (((99999999999999999999 : ℕ) : ℚ) * exchangeRate boundaryOp) := rfl
  rw [h, boundary_rate, bnTrunc_eq _ 33333333333333333332 (by norm_num) (by norm_num)]
  norm_num

lemma boundary_share :
    delegatorShareDataWei boundaryEvent boundaryOp ⟨"a", 99999999999999999999⟩
      ⟨"b", 200000000000000000001⟩ = 1 := by
  have h : delegatorShareDataWei boundaryEvent boundaryOp ⟨"a", 99999999999999999999⟩
      ⟨"b", 200000000000000000001⟩ =
      bnDividedToIntegerBy1
        (bnDiv ((200000000000000000001 : ℕ) : ℚ)
            (((300000000000000000000 : ℕ) : ℚ) - ((99999999999999999999 : ℕ) : ℚ)) *
          (((33333333333333333333 : ℕ) : ℚ) -
            ownerSlashedAmountDataWei boundaryOp ⟨"a", 99999999999999999999⟩)) := rfl
  rw [h, boundary_owner, bnDiv_eq_of _ _ (10 ^ 20) (by norm_num) (by norm_num) (by norm_num),
    bnTrunc_eq _ 1 (by norm_num) (by norm_num)]
  norm_num

lemma boundary_raw :
    rawReimbursements boundaryEvent boundaryOp ⟨"a", 99999999999999999999⟩ =
      [⟨"a", 33333333333333333332⟩, ⟨"b", 1⟩] := by
  rw [rawReimbursements, if_neg (by rw [boundary_sio]; norm_num)]
  have hfilter : boundaryOp.delegations.filter (fun d => d.delegatorId != boundaryOp.owner) =
      [⟨"b", 200000000000000000001⟩] := by decide
  rw [hfilter, List.map_cons, List.map_nil, boundary_share]
  have howner : ownerSlashedAmountDataWei boundaryOp ⟨"a", 99999999999999999999⟩ =
      33333333333333333332 := boundary_owner
  rw [howner]
  rfl

/-- The proportional-split example event: 1000 wei slashed. -/
def splitEvent : SlashingEvent := ⟨1000, 0, "op"⟩

/-- The proportional-split example snapshot: rate 1:1, owner balance 0,
delegators holding 300 and 700 of the 1000-token supply. -/
def splitOp : OperatorAndDelegations := ⟨1000, "a", 1000, [⟨"a", 0⟩, ⟨"b", 300⟩, ⟨"c", 700⟩]⟩

lemma split_rate : exchangeRate splitOp = 1 := by
  have h : exchangeRate splitOp = bnDiv ((1000 : ℕ) : ℚ) ((1000 : ℕ) : ℚ) := rfl
  rw [h, bnDiv_eq_of _ _ (10 ^ 20) (by norm_num) (by norm_num) (by norm_num)]
  norm_num

lemma split_sio : slashedAmountInOperatorTokensWei splitEvent splitOp = 1000 := by
  have h : slashedAmountInOperatorTokensWei splitEvent splitOp =
      bnDividedToIntegerBy1 (bnDiv ((1000 : ℕ) : ℚ) (exchangeRate splitOp)) := rfl
  rw [h, split_rate, bnDiv_one 1000, bnDividedToIntegerBy1_natCast]
  norm_num

lemma split_owner : ownerSlashedAmountDataWei splitOp ⟨"a", 0⟩ = 0 := by
  have h : ownerSlashedAmountDataWei splitOp ⟨"a", 0⟩ =
      bnDividedToIntegerBy1 (((0 : ℕ) : ℚ) * exchangeRate splitOp) := rfl
  rw [h, split_rate, bnTrunc_eq _ 0 (by norm_num) (by norm_num)]
  norm_num

lemma split_share_b : delegatorShareDataWei splitEvent splitOp ⟨"a", 0⟩ ⟨"b", 300⟩ = 300 := by
  have h : delegatorShareDataWei splitEvent splitOp ⟨"a", 0⟩ ⟨"b", 300⟩ =
      bnDividedToIntegerBy1
        (bnDiv ((300 : ℕ) : ℚ) (((1000 : ℕ) : ℚ) - ((0 : ℕ) : ℚ)) *
          (((1000 : ℕ) : ℚ) - ownerSlashedAmountDataWei splitOp ⟨"a", 0⟩)) := rfl
  rw [h, split_owner, bnDiv_eq_of _ _ 30000000000000000000 (by norm_num) (by norm_num)
    (by norm_num), bnTrunc_eq _ 300 (by norm_num) (by norm_num)]
  norm_num

lemma split_share_c : delegatorShareDataWei splitEvent splitOp ⟨"a", 0⟩ ⟨"c", 700⟩ = 700 := by
  have h : delegatorShareDataWei splitEvent splitOp ⟨"a", 0⟩ ⟨"c", 700⟩ =
      bnDividedToIntegerBy1
        (bnDiv ((700 : ℕ) : ℚ) (((1000 : ℕ) : ℚ) - ((0 : ℕ) : ℚ)) *
          (((1000 : ℕ) : ℚ) - ownerSlashedAmountDataWei splitOp ⟨"a", 0⟩)) := rfl
  rw [h, split_owner, bnDiv_eq_of _ _ 70000000000000000000 (by norm_num) (by norm_num)
    (by norm_num), bnTrunc_eq _ 700 (by norm_num) (by norm_num)]
  norm_num

lemma split_raw : rawReimbursements splitEvent splitOp ⟨"a", 0⟩ =
    [⟨"a", 0⟩, ⟨"b", 300⟩, ⟨"c", 700⟩] := by
  rw [rawReimbursements, if_neg (by rw [split_sio]; norm_num)]
  have hfilter : splitOp.delegations.filter (fun d => d.delegatorId != splitOp.owner) =
      [⟨"b", 300⟩, ⟨"c", 700⟩] := by decide
  rw [hfilter, List.map_cons, List.map_cons, List.map_nil, split_share_b, split_share_c,
    split_owner]
  rfl

lemma split_calc : calculateReimbursements splitEvent splitOp =
    .ok [⟨"a", 0⟩, ⟨"b", 300⟩, ⟨"c", 700⟩] := by
  rw [calculateReimbursements_eq_ok_iff]
  refine ⟨⟨"a", 0⟩, by decide, by decide, ?_, ?_⟩
  · rw [split_raw]
    have h : (splitEvent.amount : ℚ) = ((1000 : ℕ) : ℚ) := rfl
    rw [h]
    norm_num [reimbursementsTotal, TOLERANCE]
  · rw [split_raw]
    decide

/-- The rounding counterexample event: 3 wei slashed. -/
def roundingEvent : SlashingEvent := ⟨3, 0, "op"⟩

/-- The rounding counterexample snapshot: rate 1:1 (3/3), owner balance 0,
delegators holding 1 and 2 of the 3-token supply, so the delegator shares
involve the quotients 1/3 and 2/3, which the code rounds at 20 decimal
places. -/
def roundingOp : OperatorAndDelegations := ⟨3, "a", 3, [⟨"a", 0⟩, ⟨"b", 1⟩, ⟨"c", 2⟩]⟩

lemma rounding_rate : exchangeRate roundingOp = 1 := by
  have h : exchangeRate roundingOp = bnDiv ((3 : ℕ) : ℚ) ((3 : ℕ) : ℚ) := rfl
  rw [h, bnDiv_eq_of _ _ (10 ^ 20) (by norm_num) (by norm_num) (by norm_num)]
  norm_num

lemma rounding_sio : slashedAmountInOperatorTokensWei roundingEvent roundingOp = 3 := by
  have h : slashedAmountInOperatorTokensWei roundingEvent roundingOp =
      bnDividedToIntegerBy1 (bnDiv ((3 : ℕ) : ℚ) (exchangeRate roundingOp)) := rfl
  rw [h, rounding_rate, bnDiv_one 3, bnDividedToIntegerBy1_natCast]
  norm_num

lemma rounding_owner : ownerSlashedAmountDataWei roundingOp ⟨"a", 0⟩ = 0 := by
  have h : ownerSlashedAmountDataWei roundingOp ⟨"a", 0⟩ =
      bnDividedToIntegerBy1 (((0 : ℕ) : ℚ) * exchangeRate roundingOp) := rfl
  rw [h, rounding_rate, bnTrunc_eq _ 0 (by norm_num) (by norm_num)]
  norm_num

lemma rounding_share_b :
    delegatorShareDataWei roundingEvent roundingOp ⟨"a", 0⟩ ⟨"b", 1⟩ = 0 := by
  have h : delegatorShareDataWei roundingEvent roundingOp ⟨"a", 0⟩ ⟨"b", 1⟩ =
      bnDividedToIntegerBy1
        (bnDiv ((1 : ℕ) : ℚ) (((3 : ℕ) : ℚ) - ((0 : ℕ) : ℚ)) *
          (((3 : ℕ) : ℚ) - ownerSlashedAmountDataWei roundingOp ⟨"a", 0⟩)) := rfl
  rw [h, rounding_owner, bnDiv_eq_of _ _ 33333333333333333333 (by norm_num) (by norm_num)
    (by norm_num), bnTrunc_eq _ 0 (by norm_num) (by norm_num)]
  norm_num

lemma rounding_share_c :
    delegatorShareDataWei roundingEvent roundingOp ⟨"a", 0⟩ ⟨"c", 2⟩ = 2 := by
  have h : delegatorShareDataWei roundingEvent roundingOp ⟨"a", 0⟩ ⟨"c", 2⟩ =
      bnDividedToIntegerBy1
        (bnDiv ((2 : ℕ) : ℚ) (((3 : ℕ) : ℚ) - ((0 : ℕ) : ℚ)) *
          (((3 : ℕ) : ℚ) - ownerSlashedAmountDataWei roundingOp ⟨"a", 0⟩)) := rfl
  rw [h, rounding_owner, bnDiv_eq_of _ _ 66666666666666666667 (by norm_num) (by norm_num)
    (by norm_num), bnTrunc_eq _ 2 (by norm_num) (by norm_num)]
  norm_num

lemma rounding_raw : rawReimbursements roundingEvent roundingOp ⟨"a", 0⟩ =
    [⟨"a", 0⟩, ⟨"b", 0⟩, ⟨"c", 2⟩] := by
  rw [rawReimbursements, if_neg (by rw [rounding_sio]; norm_num)]
  have hfilter : roundingOp.delegations.filter (fun d => d.delegatorId != roundingOp.owner) =
      [⟨"b", 1⟩, ⟨"c", 2⟩] := by decide
  rw [hfilter, List.map_cons, List.map_cons, List.map_nil, rounding_share_b, rounding_share_c,
    rounding_owner]
  rfl

lemma rounding_calc : calculateReimbursements roundingEvent roundingOp =
    .ok [⟨"a", 0⟩, ⟨"b", 0⟩, ⟨"c", 2⟩] := by
  rw [calculateReimbursements_eq_ok_iff]
  refine ⟨⟨"a", 0⟩, by decide, by decide, ?_, ?_⟩
  · rw [rounding_raw]
    have h : (roundingEvent.amount : ℚ) = ((3 : ℕ) : ℚ) := rfl
    rw [h]
    norm_num [reimbursementsTotal, TOLERANCE]
  · rw [rounding_raw]
    decide

/-- The entitlement counterexample event: 50 wei slashed. -/
def entitlementEvent : SlashingEvent := ⟨50, 0, "op"⟩

/-- The entitlement counterexample snapshot: supply 1e22, value 50 wei (so
the exact rate 5e-21 rounds up to 1e-20 at 20 decimal places), owner balance
1e21, one delegator holding the remaining 9e21. -/
def entitlementOp : OperatorAndDelegations :=
  ⟨10000000000000000000000, "a", 50,
    [⟨"a", 1000000000000000000000⟩, ⟨"b", 9000000000000000000000⟩]⟩

lemma entitlement_rate : exchangeRate entitlementOp = ((1 : ℕ) : ℚ) / 10 ^ 20 := by
  have h : exchangeRate entitlementOp =
      bnDiv ((50 : ℕ) : ℚ) ((10000000000000000000000 : ℕ) : ℚ) := rfl
  rw [h, bnDiv_eq_of _ _ 1 (by norm_num) (by norm_num) (by norm_num)]

lemma entitlement_sio :
    slashedAmountInOperatorTokensWei entitlementEvent entitlementOp =
      5000000000000000000000 := by
  have h : slashedAmountInOperatorTokensWei entitlementEvent entitlementOp =
      bnDividedToIntegerBy1 (bnDiv ((50 : ℕ) : ℚ) (exchangeRate entitlementOp)) := rfl
  rw [h, entitlement_rate,
    bnDiv_eq_of _ _ 500000000000000000000000000000000000000000 (by norm_num) (by norm_num)
      (by norm_num),
    bnTrunc_eq _ 5000000000000000000000 (by norm_num) (by norm_num)]
  norm_num

lemma entitlement_owner :
    ownerSlashedAmountDataWei entitlementOp ⟨"a", 1000000000000000000000⟩ = 10 := by
  have h : ownerSlashedAmountDataWei entitlementOp ⟨"a", 1000000000000000000000⟩ =
      bnDividedToIntegerBy1
        (((1000000000000000000000 : ℕ) : ℚ) * exchangeRate entitlementOp) := rfl
  rw [h, entitlement_rate, bnTrunc_eq _ 10 (by norm_num) (by norm_num)]
  norm_num

lemma entitlement_share_b :
    delegatorShareDataWei entitlementEvent entitlementOp ⟨"a", 1000000000000000000000⟩
      ⟨"b", 9000000000000000000000⟩ = 40 := by
  have h : delegatorShareDataWei entitlementEvent entitlementOp
      ⟨"a", 1000000000000000000000⟩ ⟨"b", 9000000000000000000000⟩ =
      bnDividedToIntegerBy1
        (bnDiv ((9000000000000000000000 : ℕ) : ℚ)
            (((10000000000000000000000 : ℕ) : ℚ) - ((1000000000000000000000 : ℕ) : ℚ)) *
          (((50 : ℕ) : ℚ) -
            ownerSlashedAmountDataWei entitlementOp ⟨"a", 1000000000000000000000⟩)) := rfl
  rw [h, entitlement_owner, bnDiv_eq_of _ _ (10 ^ 20) (by norm_num) (by norm_num) (by norm_num),
    bnTrunc_eq _ 40 (by norm_num) (by norm_num)]
  norm_num

lemma entitlement_raw :
    rawReimbursements entitlementEvent entitlementOp ⟨"a", 1000000000000000000000⟩ =
      [⟨"a", 10⟩, ⟨"b", 40⟩] := by
  rw [rawReimbursements, if_neg (by rw [entitlement_sio]; norm_num)]
  have hfilter : entitlementOp.delegations.filter
      (fun d => d.delegatorId != entitlementOp.owner) = [⟨"b", 9000000000000000000000⟩] := by
    decide
  rw [hfilter, List.map_cons, List.map_nil, entitlement_share_b, entitlement_owner]
  rfl

lemma entitlement_calc : calculateReimbursements entitlementEvent entitlementOp =
    .ok [⟨"a", 10⟩, ⟨"b", 40⟩] := by
  rw [calculateReimbursements_eq_ok_iff]
  refine ⟨⟨"a", 1000000000000000000000⟩, by decide, by decide, ?_, ?_⟩
  · rw [entitlement_raw]
    have h : (entitlementEvent.amount : ℚ) = ((50 : ℕ) : ℚ) := rfl
    rw [h]
    norm_num [reimbursementsTotal, TOLERANCE]
  · rw [entitlement_raw]
    decide

/-! ### Claim theorems -/

/-- Claim C1: for every event and snapshot that reach the conservation check
(nonempty delegations, owner's delegation found), `calculateReimbursements`
returns a reimbursement list iff the absolute difference between the sum of
the computed reimbursement amounts and the slashed amount is at most the
fixed 10000-wei tolerance, and raises the mismatch error (carrying the
computed total, the slashed amount and the full list) iff the difference
exceeds the tolerance; the mismatch is never silently corrected. -/
theorem c1_conservation_gate (ev : SlashingEvent) (op : OperatorAndDelegations)
    (od : Delegation) (hE : op.delegations.isEmpty = false)
    (hF : op.delegations.find? (fun d => d.delegatorId == op.owner) = some od) :
    ((∃ rs, calculateReimbursements ev op = .ok rs) ↔
      |reimbursementsTotal (rawReimbursements ev op od) - (ev.amount : ℚ)| ≤ TOLERANCE) ∧
    (calculateReimbursements ev op =
        .error (.reimbursementMismatch (reimbursementsTotal (rawReimbursements ev op od))
          ((ev.amount : ℚ)) (rawReimbursements ev op od)) ↔
      TOLERANCE < |reimbursementsTotal (rawReimbursements ev op od) - (ev.amount : ℚ)|) := by
  constructor
  · constructor
    · rintro ⟨rs, hrs⟩
      obtain ⟨od', -, hod', hle, -⟩ := (calculateReimbursements_eq_ok_iff ev op rs).mp hrs
      rw [hF] at hod'
      cases hod'
      exact hle
    · intro hle
      exact ⟨_, (calculateReimbursements_eq_ok_iff ev op _).mpr ⟨od, hE, hF, hle, rfl⟩⟩
  · exact calculateReimbursements_mismatch_iff ev op od hE hF

/-- Witness for C1 at the full-absorption example: the tolerance is met and
a list is returned. -/
theorem c1_conservation_gate_witness :
    |reimbursementsTotal (rawReimbursements fullAbsorbEvent fullAbsorbOp ⟨"a", 10⟩) -
        ((fullAbsorbEvent.amount : ℚ))| ≤ TOLERANCE ∧
    ∃ rs, calculateReimbursements fullAbsorbEvent fullAbsorbOp = .ok rs := by
  have hdiff : |reimbursementsTotal (rawReimbursements fullAbsorbEvent fullAbsorbOp ⟨"a", 10⟩) -
      ((fullAbsorbEvent.amount : ℚ))| ≤ TOLERANCE := by
    rw [fullAbsorb_raw]
    norm_num [reimbursementsTotal, TOLERANCE, fullAbsorbEvent]
  exact ⟨hdiff,
    (c1_conservation_gate fullAbsorbEvent fullAbsorbOp ⟨"a", 10⟩ (by decide)
        (by decide)).1.mpr hdiff⟩

/-- Counterexample for C7: a snapshot with an empty delegation list contains
no delegation for its owner, yet `calculateReimbursements` raises the
no-delegations error, not the owner-delegation-missing error the claim
names. -/
theorem c7_missing_owner_counterexample :
    (⟨5, "a", 5, []⟩ : OperatorAndDelegations).delegations.find?
        (fun d => d.delegatorId == (⟨5, "a", 5, []⟩ : OperatorAndDelegations).owner) = none ∧
    calculateReimbursements ⟨1, 0, "op"⟩ ⟨5, "a", 5, []⟩ = .error .noDelegations ∧
    calculateReimbursements ⟨1, 0, "op"⟩ ⟨5, "a", 5, []⟩ ≠ .error .ownerDelegationMissing := by
  have hcalc : calculateReimbursements ⟨1, 0, "op"⟩ ⟨5, "a", 5, []⟩ = .error .noDelegations := rfl
  refine ⟨rfl, hcalc, ?_⟩
  rw [hcalc]
  simp

/-- Claim C7 as amended: a snapshot with a nonempty delegation list but no
delegation whose id equals the owner always raises the
owner-delegation-missing error (an empty delegation list instead raises the
no-delegations error); in both cases no reimbursements are produced and
nothing is silently defaulted. -/
theorem c7_missing_owner_amended (ev : SlashingEvent) (op : OperatorAndDelegations)
    (hne : op.delegations ≠ [])
    (hmiss : ∀ d ∈ op.delegations, d.delegatorId ≠ op.owner) :
    calculateReimbursements ev op = .error .ownerDelegationMissing := by
  have hE : op.delegations.isEmpty = false := by
    cases h : op.delegations with
    | nil => exact absurd h hne
    | cons a t => rfl
  have hF : op.delegations.find? (fun d => d.delegatorId == op.owner) = none :=
    List.find?_eq_none.mpr (fun d hd => by simpa using hmiss d hd)
  simp [calculateReimbursements, hE, hF]

/-- Witness for the amended C7 at a concrete ownerless snapshot. -/
theorem c7_missing_owner_amended_witness :
    calculateReimbursements ⟨1, 0, "op"⟩ ⟨5, "a", 5, [⟨"b", 1⟩]⟩ =
      .error .ownerDelegationMissing :=
  c7_missing_owner_amended ⟨1, 0, "op"⟩ ⟨5, "a", 5, [⟨"b", 1⟩]⟩ (by simp) (by decide)

/-- Counterexample for C3: reading the claim's `floor(slashed / rate)` with
the exact rational rate `valueWithoutEarnings / totalSupply`, the owner's
balance here is at least that amount (both equal `1e20 - 1`), yet the code,
which rounds the rate to 20 decimal places before dividing, computes
`slashedAmountInOperatorTokensWei = 1e20`, takes the shared branch, and
returns two reimbursements instead of a single full reimbursement to the
owner. -/
theorem c3_full_absorption_counterexample :
    (⌊(boundaryEvent.amount : ℚ) /
        ((boundaryOp.valueWithoutEarnings : ℚ) / (boundaryOp.operatorTokenTotalSupplyWei : ℚ))⌋ :
      ℚ) ≤ ((99999999999999999999 : ℕ) : ℚ) ∧
    calculateReimbursements boundaryEvent boundaryOp =
      .ok [⟨"a", 33333333333333333332⟩, ⟨"b", 1⟩] ∧
    calculateReimbursements boundaryEvent boundaryOp ≠
      .ok [⟨boundaryOp.owner, (boundaryEvent.amount : ℚ)⟩] := by
  have hexact : (boundaryEvent.amount : ℚ) /
      ((boundaryOp.valueWithoutEarnings : ℚ) / (boundaryOp.operatorTokenTotalSupplyWei : ℚ)) =
      ((99999999999999999999 : ℤ) : ℚ) := by
    have h : (boundaryEvent.amount : ℚ) = ((33333333333333333333 : ℕ) : ℚ) := rfl
    have h2 : (boundaryOp.valueWithoutEarnings : ℚ) = ((100000000000000000000 : ℕ) : ℚ) := rfl
    have h3 : (boundaryOp.operatorTokenTotalSupplyWei : ℚ) =
        ((300000000000000000000 : ℕ) : ℚ) := rfl
    rw [h, h2, h3]
    norm_num
  have hok : calculateReimbursements boundaryEvent boundaryOp =
      .ok [⟨"a", 33333333333333333332⟩, ⟨"b", 1⟩] := by
    rw [calculateReimbursements_eq_ok_iff]
    refine ⟨⟨"a", 99999999999999999999⟩, by decide, by decide, ?_, ?_⟩
    · rw [boundary_raw]
      have h : (boundaryEvent.amount : ℚ) = ((33333333333333333333 : ℕ) : ℚ) := rfl
      rw [h]
      norm_num [reimbursementsTotal, TOLERANCE]
    · rw [boundary_raw]
      decide
  refine ⟨by rw [hexact, Int.floor_intCast]; norm_num, hok, ?_⟩
  rw [hok]
  intro h
  simp [boundaryOp, boundaryEvent] at h

/-- Claim C3 as amended: whenever the owner's operator-token balance is at
least the slashed amount expressed in operator tokens as the code computes it
(truncation of the 20-decimal-rounded division of `slashed` by the
20-decimal-rounded rate), the allocator returns exactly one reimbursement,
whose recipient is the owner and whose amount is the full slashed amount. -/
theorem c3_full_absorption_amended (ev : SlashingEvent) (op : OperatorAndDelegations)
    (od : Delegation) (hE : op.delegations.isEmpty = false)
    (hF : op.delegations.find? (fun d => d.delegatorId == op.owner) = some od)
    (habs : slashedAmountInOperatorTokensWei ev op ≤ (od.operatorTokenBalanceWei : ℚ)) :
    calculateReimbursements ev op = .ok [⟨op.owner, (ev.amount : ℚ)⟩] := by
  have hraw : rawReimbursements ev op od = [⟨op.owner, (ev.amount : ℚ)⟩] := by
    rw [rawReimbursements, if_pos habs]
  rw [calculateReimbursements_eq_ok_iff]
  refine ⟨od, hE, hF, ?_, ?_⟩
  · rw [hraw]
    simp [reimbursementsTotal, TOLERANCE]
  · rw [hraw]
    simp

/-- Witness for the amended C3 at the full-absorption example. -/
theorem c3_full_absorption_amended_witness :
    calculateReimbursements fullAbsorbEvent fullAbsorbOp = .ok [⟨"a", (5 : ℚ)⟩] := by
  have h := c3_full_absorption_amended fullAbsorbEvent fullAbsorbOp ⟨"a", 10⟩ (by decide)
    (by decide) (by rw [fullAbsorb_sio]; norm_num)
  rw [h]
  norm_num [fullAbsorbOp, fullAbsorbEvent]

/-- Counterexample for C2: at rate 1:1 (3/3) with owner balance 0 and
delegators holding 1 and 2 of 3 tokens (a shared-branch input), the claim's
exact formula pays delegator "b"
`floor((1 / (totalSupply - ownerBalance)) * (slashed - 0)) = 1`, but the
code, whose divisions round to 20 decimal places, pays "b"
`floor(0.33333333333333333333 * 3) = 0`. -/
theorem c2_proportional_split_counterexample :
    (0 : ℚ) < slashedAmountInOperatorTokensWei roundingEvent roundingOp ∧
    calculateReimbursements roundingEvent roundingOp =
      .ok [⟨"a", 0⟩, ⟨"b", 0⟩, ⟨"c", 2⟩] ∧
    (⌊(1 : ℚ) / (((3 : ℕ) : ℚ) - ((0 : ℕ) : ℚ)) * (((3 : ℕ) : ℚ) - 0)⌋ : ℚ) = 1 ∧
    (⟨"b", 1⟩ : Reimbursement) ∉ [(⟨"a", (0 : ℚ)⟩ : Reimbursement), ⟨"b", 0⟩, ⟨"c", 2⟩] := by
  refine ⟨by rw [rounding_sio]; norm_num, rounding_calc, ?_, by decide⟩
  have h : (1 : ℚ) / (((3 : ℕ) : ℚ) - ((0 : ℕ) : ℚ)) * (((3 : ℕ) : ℚ) - 0) = 1 := by
    norm_num
  rw [h]
  norm_num

/-- Claim C2 as amended: in the shared branch (owner balance strictly below
the code's `slashedAmountInOperatorTokensWei`), the returned list consists of
exactly the owner's entry, paying `floor(ownerBalance * rate)` with the
20-decimal-rounded rate, and one entry per non-owner delegation `d`, paying
`floor(round20(dBalance / (totalSupply - ownerBalance)) * (slashed - ownerReimbursement))`;
in particular, with owner balance 0, delegator balances 300 and 700, rate
1:1 and slashed amount 1000, the delegator shares are 300 and 700. -/
theorem c2_proportional_split_amended (ev : SlashingEvent) (op : OperatorAndDelegations)
    (od : Delegation)
    (hF : op.delegations.find? (fun d => d.delegatorId == op.owner) = some od)
    (hshared : (od.operatorTokenBalanceWei : ℚ) < slashedAmountInOperatorTokensWei ev op)
    (rs : List Reimbursement) (hok : calculateReimbursements ev op = .ok rs) :
    ((⟨op.owner, ownerSlashedAmountDataWei op od⟩ : Reimbursement) ∈ rs ∧
      (∀ d ∈ op.delegations, d.delegatorId ≠ op.owner →
        (⟨d.delegatorId, delegatorShareDataWei ev op od d⟩ : Reimbursement) ∈ rs) ∧
      (∀ r ∈ rs, r = ⟨op.owner, ownerSlashedAmountDataWei op od⟩ ∨
        ∃ d ∈ op.delegations, d.delegatorId ≠ op.owner ∧
          r = ⟨d.delegatorId, delegatorShareDataWei ev op od d⟩)) ∧
    calculateReimbursements splitEvent splitOp = .ok [⟨"a", 0⟩, ⟨"b", 300⟩, ⟨"c", 700⟩] := by
  obtain ⟨od', -, hod', -, hrs⟩ := (calculateReimbursements_eq_ok_iff ev op rs).mp hok
  rw [hF] at hod'
  cases hod'
  have hperm : rs.Perm (rawReimbursements ev op od) := by
    rw [hrs]
    exact List.perm_insertionSort _ _
  have hraw : rawReimbursements ev op od =
      ⟨op.owner, ownerSlashedAmountDataWei op od⟩ ::
        (op.delegations.filter (fun d => d.delegatorId != op.owner)).map
          (fun d => ⟨d.delegatorId, delegatorShareDataWei ev op od d⟩) := by
    rw [rawReimbursements, if_neg (not_le.mpr hshared)]
  refine ⟨⟨?_, ?_, ?_⟩, split_calc⟩
  · rw [hperm.mem_iff, hraw]
    exact List.mem_cons_self _ _
  · intro d hd hdo
    rw [hperm.mem_iff, hraw]
    refine List.mem_cons_of_mem _ (List.mem_map_of_mem _ ?_)
    exact List.mem_filter.mpr ⟨hd, by simp [hdo]⟩
  · intro r hr
    rw [hperm.mem_iff, hraw] at hr
    rcases List.mem_cons.mp hr with h | h
    · exact Or.inl h
    · right
      obtain ⟨d, hd, rfl⟩ := List.mem_map.mp h
      have hd' := List.mem_filter.mp hd
      exact ⟨d, hd'.1, by simpa using hd'.2, rfl⟩

/-- Witness for the amended C2 at the proportional-split example: the owner
entry appears in the output list. -/
theorem c2_proportional_split_amended_witness :
    (⟨"a", ownerSlashedAmountDataWei splitOp ⟨"a", 0⟩⟩ : Reimbursement) ∈
      [(⟨"a", (0 : ℚ)⟩ : Reimbursement), ⟨"b", 300⟩, ⟨"c", 700⟩] := by
  have h := (c2_proportional_split_amended splitEvent splitOp ⟨"a", 0⟩ (by decide)
      (by rw [split_sio]; show ((0 : ℕ) : ℚ) < 1000; norm_num)
      [⟨"a", 0⟩, ⟨"b", 300⟩, ⟨"c", 700⟩] split_calc).1.1
  exact h

/-- Counterexample for C4: supply 1e22, value 50 wei (rate 5e-21, which the
20-decimal rounding turns into 1e-20, double the exact rate), owner balance
1e21, delegator balance 9e21, slashed amount 50.  The run succeeds and pays
the owner 10 wei although the owner's exact proportional entitlement is 5
wei, exceeding the claimed exact-entitlement-plus-one-wei bound. -/
theorem c4_truncation_counterexample :
    calculateReimbursements entitlementEvent entitlementOp = .ok [⟨"a", 10⟩, ⟨"b", 40⟩] ∧
    ((1000000000000000000000 : ℕ) : ℚ) *
        ((entitlementOp.valueWithoutEarnings : ℚ) /
          (entitlementOp.operatorTokenTotalSupplyWei : ℚ)) + 1 < 10 := by
  refine ⟨entitlement_calc, ?_⟩
  have h2 : (entitlementOp.valueWithoutEarnings : ℚ) = ((50 : ℕ) : ℚ) := rfl
  have h3 : (entitlementOp.operatorTokenTotalSupplyWei : ℚ) =
      ((10000000000000000000000 : ℕ) : ℚ) := rfl
  rw [h2, h3]
  norm_num

/-- The per-recipient entitlement bound of the amended claim C4, computed
with the code's 20-decimal-rounded quotients: the full slashed amount in the
full-absorption branch; `ownerBalance * rate` for the owner and
`round20(balance / (totalSupply - ownerBalance)) * (slashed - ownerReimbursement)`
for a non-owner delegation in the shared branch. -/
def roundedEntitlement (ev : SlashingEvent) (op : OperatorAndDelegations)
    (od : Delegation) (r : Reimbursement) : ℚ :=
  if slashedAmountInOperatorTokensWei ev op ≤ (od.operatorTokenBalanceWei : ℚ) then
    (ev.amount : ℚ)
  else if r.recipient = op.owner then
    (od.operatorTokenBalanceWei : ℚ) * exchangeRate op
  else
    match op.delegations.find? (fun d => d.delegatorId == r.recipient) with
    | some d =>
        bnDiv (d.operatorTokenBalanceWei : ℚ)
            ((op.operatorTokenTotalSupplyWei : ℚ) - (od.operatorTokenBalanceWei : ℚ)) *
          ((ev.amount : ℚ) - ownerSlashedAmountDataWei op od)
    | none => 0

/-- Claim C4 as amended: with a positive rounded rate, a positive remaining
pool in the shared branch and delegator ids unique in the snapshot, every
reimbursement amount the allocator returns is a non-negative integer
(conversions to wei truncate toward zero) and never exceeds the recipient's
proportional entitlement computed with the code's 20-decimal-rounded
quotients (the claim's exact-rational entitlement bound does not hold, see
the counterexample). -/
theorem c4_truncation_amended (ev : SlashingEvent) (op : OperatorAndDelegations)
    (od : Delegation)
    (hF : op.delegations.find? (fun d => d.delegatorId == op.owner) = some od)
    (hnodup : (op.delegations.map (fun d => d.delegatorId)).Nodup)
    (hrate : 0 < exchangeRate op)
    (hpool : (od.operatorTokenBalanceWei : ℚ) < slashedAmountInOperatorTokensWei ev op →
      (od.operatorTokenBalanceWei : ℚ) < (op.operatorTokenTotalSupplyWei : ℚ))
    (rs : List Reimbursement) (hok : calculateReimbursements ev op = .ok rs) :
    ∀ r ∈ rs, (∃ n : ℕ, r.amount = (n : ℚ)) ∧ r.amount ≤ roundedEntitlement ev op od r := by
  obtain ⟨od', -, hod', -, hrs⟩ := (calculateReimbursements_eq_ok_iff ev op rs).mp hok
  rw [hF] at hod'
  cases hod'
  have hperm : rs.Perm (rawReimbursements ev op od) := by
    rw [hrs]
    exact List.perm_insertionSort _ _
  intro r hr
  have hr' : r ∈ rawReimbursements ev op od := hperm.mem_iff.mp hr
  by_cases habs : slashedAmountInOperatorTokensWei ev op ≤ (od.operatorTokenBalanceWei : ℚ)
  · rw [rawReimbursements, if_pos habs] at hr'
    have hr2 := List.mem_singleton.mp hr'
    subst hr2
    exact ⟨⟨ev.amount, rfl⟩, by rw [roundedEntitlement, if_pos habs]⟩
  · rw [rawReimbursements, if_neg habs] at hr'
    have hshared := not_le.mp habs
    have hrem : 0 ≤ (ev.amount : ℚ) - ownerSlashedAmountDataWei op od :=
      sub_nonneg.mpr (le_of_lt (ownerSlashed_lt_slashed ev op od hrate hshared))
    have hpool' : (0 : ℚ) ≤
        (op.operatorTokenTotalSupplyWei : ℚ) - (od.operatorTokenBalanceWei : ℚ) :=
      sub_nonneg.mpr (le_of_lt (hpool hshared))
    rcases List.mem_cons.mp hr' with rfl | hmem
    · have harg : 0 ≤ (od.operatorTokenBalanceWei : ℚ) * exchangeRate op :=
        mul_nonneg (by positivity) hrate.le
      refine ⟨?_, ?_⟩
      · rw [show (⟨op.owner, ownerSlashedAmountDataWei op od⟩ : Reimbursement).amount =
            ownerSlashedAmountDataWei op od from rfl, ownerSlashedAmountDataWei]
        exact bnDividedToIntegerBy1_isNat harg
      · rw [roundedEntitlement, if_neg habs, if_pos rfl]
        rw [show (⟨op.owner, ownerSlashedAmountDataWei op od⟩ : Reimbursement).amount =
            ownerSlashedAmountDataWei op od from rfl, ownerSlashedAmountDataWei]
        exact bnDividedToIntegerBy1_le harg
    · obtain ⟨d, hd, rfl⟩ := List.mem_map.mp hmem
      have hdf := List.mem_filter.mp hd
      have hdo : d.delegatorId ≠ op.owner := by simpa using hdf.2
      have hsh : 0 ≤ bnDiv (d.operatorTokenBalanceWei : ℚ)
          ((op.operatorTokenTotalSupplyWei : ℚ) - (od.operatorTokenBalanceWei : ℚ)) :=
        bnDiv_nonneg (by positivity) hpool'
      have harg : 0 ≤ bnDiv (d.operatorTokenBalanceWei : ℚ)
          ((op.operatorTokenTotalSupplyWei : ℚ) - (od.operatorTokenBalanceWei : ℚ)) *
          ((ev.amount : ℚ) - ownerSlashedAmountDataWei op od) := mul_nonneg hsh hrem
      refine ⟨?_, ?_⟩
      · rw [show (⟨d.delegatorId, delegatorShareDataWei ev op od d⟩ : Reimbursement).amount =
            delegatorShareDataWei ev op od d from rfl, delegatorShareDataWei]
        exact bnDividedToIntegerBy1_isNat harg
      · rw [roundedEntitlement, if_neg habs, if_neg hdo]
        rw [find?_beq_of_nodup_map hnodup hdf.1 _ rfl]
        rw [show (⟨d.delegatorId, delegatorShareDataWei ev op od d⟩ : Reimbursement).amount =
            delegatorShareDataWei ev op od d from rfl, delegatorShareDataWei]
        exact bnDividedToIntegerBy1_le harg

/-- Witness for the amended C4 at the proportional-split example: the second
delegator receives amount 300, a non-negative integer bounded by its rounded
entitlement. -/
theorem c4_truncation_amended_witness :
    (∃ n : ℕ, ((⟨"b", (300 : ℚ)⟩ : Reimbursement).amount) = (n : ℚ)) ∧
    (⟨"b", (300 : ℚ)⟩ : Reimbursement).amount ≤
      roundedEntitlement splitEvent splitOp ⟨"a", 0⟩ ⟨"b", 300⟩ :=
  c4_truncation_amended splitEvent splitOp ⟨"a", 0⟩ (by decide) (by decide)
    (by rw [split_rate]; norm_num)
    (fun _ => by show ((0 : ℕ) : ℚ) < ((1000 : ℕ) : ℚ); norm_num)
    [⟨"a", 0⟩, ⟨"b", 300⟩, ⟨"c", 700⟩] split_calc ⟨"b", 300⟩ (by decide)

/-- Claim C6: `calculateReimbursements` is a pure function (identical inputs
give identical output); its successful output is sorted ascending by
recipient identifier, and, when delegator ids are unique in the snapshot, the
output is independent of the order of the delegations: any permutation of the
delegation list yields the very same list. -/
theorem c6_deterministic_sorted (ev : SlashingEvent) (op : OperatorAndDelegations)
    (l₂ : List Delegation) (hperm : op.delegations.Perm l₂)
    (hnodup : (op.delegations.map (fun d => d.delegatorId)).Nodup)
    (rs : List Reimbursement) (hok : calculateReimbursements ev op = .ok rs) :
    rs.Sorted Reimbursement.le ∧
    calculateReimbursements ev { op with delegations := l₂ } = .ok rs := by
  obtain ⟨od, hE, hF, htol, hrs⟩ := (calculateReimbursements_eq_ok_iff ev op rs).mp hok
  have hne : op.delegations ≠ [] := by
    intro h0
    rw [h0] at hE
    simp at hE
  have hne₂ : l₂ ≠ [] := by
    intro h0
    rw [h0] at hperm
    exact hne hperm.eq_nil
  have hE' : ({ op with delegations := l₂ } : OperatorAndDelegations).delegations.isEmpty =
      false := by
    show l₂.isEmpty = false
    cases h2 : l₂ with
    | nil => exact absurd h2 hne₂
    | cons a t => rfl
  have hF' : ({ op with delegations := l₂ } : OperatorAndDelegations).delegations.find?
      (fun d => d.delegatorId ==
        ({ op with delegations := l₂ } : OperatorAndDelegations).owner) = some od := by
    show l₂.find? (fun d => d.delegatorId == op.owner) = some od
    rw [← find?_eq_of_perm_of_nodup hperm hnodup op.owner]
    exact hF
  have hraw' : rawReimbursements ev { op with delegations := l₂ } od =
      (if slashedAmountInOperatorTokensWei ev op ≤ (od.operatorTokenBalanceWei : ℚ) then
        [⟨op.owner, (ev.amount : ℚ)⟩]
      else
        ⟨op.owner, ownerSlashedAmountDataWei op od⟩ ::
          (l₂.filter (fun d => d.delegatorId != op.owner)).map
            (fun d => ⟨d.delegatorId, delegatorShareDataWei ev op od d⟩)) := rfl
  have hperm_raw : (rawReimbursements ev { op with delegations := l₂ } od).Perm
      (rawReimbursements ev op od) := by
    rw [hraw', rawReimbursements]
    by_cases habs : slashedAmountInOperatorTokensWei ev op ≤ (od.operatorTokenBalanceWei : ℚ)
    · rw [if_pos habs, if_pos habs]
    · rw [if_neg habs, if_neg habs]
      exact ((hperm.filter _).map _).symm.cons _
  have htot : reimbursementsTotal (rawReimbursements ev { op with delegations := l₂ } od) =
      reimbursementsTotal (rawReimbursements ev op od) := by
    rw [reimbursementsTotal, reimbursementsTotal]
    exact (hperm_raw.map _).sum_eq
  have hok' : calculateReimbursements ev { op with delegations := l₂ } =
      .ok ((rawReimbursements ev { op with delegations := l₂ } od).insertionSort
        Reimbursement.le) := by
    rw [calculateReimbursements_eq_ok_iff]
    exact ⟨od, hE', hF', by rw [htot]; exact htol, rfl⟩
  have hperm2 : rs.Perm (rawReimbursements ev op od) := by
    rw [hrs]
    exact List.perm_insertionSort _ _
  have hs : rs.Sorted Reimbursement.le := by
    rw [hrs]
    exact List.sorted_insertionSort _ _
  have hnr : (rs.map (fun r => r.recipient)).Nodup := by
    refine ((hperm2.map _).nodup_iff).mpr ?_
    rw [rawReimbursements]
    by_cases habs : slashedAmountInOperatorTokensWei ev op ≤ (od.operatorTokenBalanceWei : ℚ)
    · rw [if_pos habs]
      simp
    · rw [if_neg habs, List.map_cons, List.nodup_cons]
      constructor
      · intro hmem
        rw [List.map_map] at hmem
        obtain ⟨d, hd, hdid⟩ := List.mem_map.mp hmem
        have hdo := (List.mem_filter.mp hd).2
        simp only [bne_iff_ne, decide_eq_true_eq] at hdo
        exact hdo hdid
      · rw [List.map_map]
        show (((op.delegations.filter (fun d => d.delegatorId != op.owner)).map
          (fun d => d.delegatorId))).Nodup
        exact hnodup.sublist ((List.filter_sublist _).map _)
  have hsorted' : ((rawReimbursements ev { op with delegations := l₂ } od).insertionSort
      Reimbursement.le).Sorted Reimbursement.le := List.sorted_insertionSort _ _
  have hpermf : rs.Perm ((rawReimbursements ev { op with delegations := l₂ } od).insertionSort
      Reimbursement.le) :=
    hperm2.trans (hperm_raw.symm.trans (List.perm_insertionSort _ _).symm)
  have heq : rs = (rawReimbursements ev { op with delegations := l₂ } od).insertionSort
      Reimbursement.le := sortedLists_eq hpermf hs hsorted' hnr
  exact ⟨hs, by rw [hok', ← heq]⟩

/-- Witness for C6: the proportional-split output is sorted, and rotating
the delegation list leaves the output unchanged. -/
theorem c6_deterministic_sorted_witness :
    ([(⟨"a", (0 : ℚ)⟩ : Reimbursement), ⟨"b", 300⟩, ⟨"c", 700⟩] : List Reimbursement).Sorted
      Reimbursement.le ∧
    calculateReimbursements splitEvent
        { splitOp with delegations := [⟨"c", 700⟩, ⟨"a", 0⟩, ⟨"b", 300⟩] } =
      .ok [⟨"a", 0⟩, ⟨"b", 300⟩, ⟨"c", 700⟩] :=
  c6_deterministic_sorted splitEvent splitOp [⟨"c", 700⟩, ⟨"a", 0⟩, ⟨"b", 300⟩]
    (by decide) (by decide) [⟨"a", 0⟩, ⟨"b", 300⟩, ⟨"c", 700⟩] split_calc

/-- Claim C9: `getBlockAtTimestamp` returns a block number exactly when the
block-index source returned exactly one block; for any other result count it
fails with the ambiguous-block error carrying the raw result, and no
nearest-block fallback is attempted (the unique block's own number is the
only possible success value). -/
theorem c9_block_resolution (blocks : List Block) :
    ((∃ n, getBlockAtTimestamp blocks = .ok n) ↔ blocks.length = 1) ∧
    (blocks.length ≠ 1 → getBlockAtTimestamp blocks = .error (.ambiguousBlock blocks)) ∧
    (∀ b, blocks = [b] → getBlockAtTimestamp blocks = .ok b.number) := by
  match blocks with
  | [] =>
    refine ⟨by simp [getBlockAtTimestamp], fun _ => rfl, fun b hb => by cases hb⟩
  | [b] =>
    refine ⟨by simp [getBlockAtTimestamp], fun h => absurd rfl h, fun b' hb' => ?_⟩
    cases hb'
    rfl
  | b :: c :: t =>
    refine ⟨by simp [getBlockAtTimestamp], fun _ => rfl, fun b' hb' => by cases hb'⟩

/-- Witness for C9 at concrete inputs: the empty result errors and the
singleton result returns its block number. -/
theorem c9_block_resolution_witness :
    getBlockAtTimestamp [] = .error (.ambiguousBlock []) ∧
    getBlockAtTimestamp [⟨"0xb", 7, 5⟩] = .ok 7 :=
  ⟨(c9_block_resolution []).2.1 (by decide),
    (c9_block_resolution [⟨"0xb", 7, 5⟩]).2.2 ⟨"0xb", 7, 5⟩ rfl⟩

/-- Claim C10: for any event source satisfying the query semantics (pages of
at most `PAGE_SIZE` events, sorted ascending by date, all dates between the
requested lower bound and the fixed end time), the pagination loop
terminates: with any fuel exceeding `endSec + 1 - s` the loop reaches the
short-page exit, because each full page advances the lower bound strictly
while it stays bounded by the end time. -/
theorem c10_pagination_terminates (page : ℕ → List SlashingEvent) (endSec : ℕ)
    (hconf : ConformingSource page endSec) :
    ∀ fuel s, endSec + 1 - s < fuel → (getSlashingEventsLoop page fuel s).isSome := by
  intro fuel
  induction fuel with
  | zero => intro s h; omega
  | succ fuel ih =>
    intro s h
    by_cases hl : (page s).length < PAGE_SIZE
    · simp [getSlashingEventsLoop, hl]
    · have hne : page s ≠ [] := by
        intro hnil
        rw [hnil] at hl
        simp [PAGE_SIZE] at hl
      have hmem := getLastD_mem (page s) default hne
      obtain ⟨-, hdates, -⟩ := hconf s
      obtain ⟨hge, hle⟩ := hdates _ hmem
      have hscall : endSec + 1 - (((page s).getLastD default).date + 1) < fuel := by omega
      have hrec := ih (((page s).getLastD default).date + 1) hscall
      simp only [getSlashingEventsLoop, if_neg hl]
      cases hrec' : getSlashingEventsLoop page fuel (((page s).getLastD default).date + 1) with
      | none => rw [hrec'] at hrec; simp at hrec
      | some rest => simp

/-- Witness for C10: the empty source conforms with end time 0, and the loop
returns with fuel 2 from start 0. -/
theorem c10_pagination_terminates_witness :
    (getSlashingEventsLoop (fun _ => []) 2 0).isSome :=
  c10_pagination_terminates (fun _ => []) 0
    (fun s => ⟨by simp [PAGE_SIZE], by simp, by simp⟩) 2 0 (by norm_num)

/-- Claim C8: `getSlashingEvents` is the pagination loop's concatenated
result filtered by the minimum amount, applied only after all pages are
concatenated (the loop itself never sees the minimum): events below
`minWei` are absent from the output, events at or above it are all
retained. -/
theorem c8_minimum_filter (page : ℕ → List SlashingEvent) (startSec minWei fuel : ℕ)
    (l : List SlashingEvent) (h : getSlashingEventsLoop page fuel startSec = some l) :
    getSlashingEvents page startSec minWei fuel =
        some (l.filter (fun e => minWei ≤ e.amount)) ∧
    (∀ e ∈ l.filter (fun e => minWei ≤ e.amount), minWei ≤ e.amount) ∧
    (∀ e ∈ l, minWei ≤ e.amount → e ∈ l.filter (fun e => minWei ≤ e.amount)) ∧
    (∀ e, e.amount < minWei → e ∉ l.filter (fun e => minWei ≤ e.amount)) := by
  refine ⟨by rw [getSlashingEvents, h]; rfl, ?_, ?_, ?_⟩
  · intro e he
    simpa using (List.mem_filter.mp he).2
  · intro e he hm
    exact List.mem_filter.mpr ⟨he, by simpa using hm⟩
  · intro e hm hmem
    have h2 := (List.mem_filter.mp hmem).2
    simp only [decide_eq_true_eq] at h2
    omega

/-- Witness for C8 at a concrete one-page source with minimum 3: the event
with amount 5 is kept and an event with amount 2 is dropped. -/
theorem c8_minimum_filter_witness :
    getSlashingEvents (fun _ => [⟨5, 0, "x"⟩, ⟨2, 1, "x"⟩]) 0 3 1 =
      some [⟨5, 0, "x"⟩] := by
  have h := c8_minimum_filter (fun _ => [⟨5, 0, "x"⟩, ⟨2, 1, "x"⟩]) 0 3 1
    [⟨5, 0, "x"⟩, ⟨2, 1, "x"⟩] (by decide)
  rw [h.1]
  decide

/-- Claim C5: the pagination loop stops exactly when a page returns fewer
than `PAGE_SIZE` items; after a full page the next page's lower time bound is
the last returned event's date plus one; consequently, on the synthetic
source that serves `PAGE_SIZE`, `PAGE_SIZE`, `PAGE_SIZE - 1` events across
the three pages the loop actually requests, `getSlashingEvents` returns the
full universe of `2 * PAGE_SIZE + (PAGE_SIZE - 1)` events with no duplicates
and no boundary gaps. -/
theorem c5_pagination_boundaries :
    (∀ page : ℕ → List SlashingEvent, ∀ s fuel, (page s).length < PAGE_SIZE →
        getSlashingEventsLoop page (fuel + 1) s = some (page s)) ∧
    (∀ page : ℕ → List SlashingEvent, ∀ s fuel, PAGE_SIZE ≤ (page s).length →
        getSlashingEventsLoop page (fuel + 1) s =
          (getSlashingEventsLoop page fuel (((page s).getLastD default).date + 1)).map
            (fun rest => page s ++ rest)) ∧
    getSlashingEvents syntheticPage 0 MIN_SLASHING_WEI 3 =
        some ((List.range' 0 SYNTHETIC_COUNT).map syntheticEvent) ∧
    ((List.range' 0 SYNTHETIC_COUNT).map syntheticEvent).length =
        2 * PAGE_SIZE + (PAGE_SIZE - 1) ∧
    ((List.range' 0 SYNTHETIC_COUNT).map syntheticEvent).Nodup := by
  have hA : ∀ page : ℕ → List SlashingEvent, ∀ s fuel, (page s).length < PAGE_SIZE →
      getSlashingEventsLoop page (fuel + 1) s = some (page s) := by
    intro page s fuel hlen
    simp [getSlashingEventsLoop, hlen]
  have hB : ∀ page : ℕ → List SlashingEvent, ∀ s fuel, PAGE_SIZE ≤ (page s).length →
      getSlashingEventsLoop page (fuel + 1) s =
        (getSlashingEventsLoop page fuel (((page s).getLastD default).date + 1)).map
          (fun rest => page s ++ rest) := by
    intro page s fuel hlen
    simp only [getSlashingEventsLoop, if_neg (Nat.not_lt.mpr hlen)]
    cases hrec : getSlashingEventsLoop page fuel (((page s).getLastD default).date + 1) with
    | none => rfl
    | some rest => rfl
  have hp0 : syntheticPage 0 = (List.range' 0 1000).map syntheticEvent := by
    rw [syntheticPage]
    norm_num [PAGE_SIZE, SYNTHETIC_COUNT]
  have hp1 : syntheticPage 1000 = (List.range' 1000 1000).map syntheticEvent := by
    rw [syntheticPage]
    norm_num [PAGE_SIZE, SYNTHETIC_COUNT]
  have hp2 : syntheticPage 2000 = (List.range' 2000 999).map syntheticEvent := by
    rw [syntheticPage]
    norm_num [PAGE_SIZE, SYNTHETIC_COUNT]
  have hlast0 : ((syntheticPage 0).getLastD default).date = 999 := by
    rw [hp0, getLastD_map_range' syntheticEvent default 1000 0 (by norm_num)]
    rfl
  have hlast1 : ((syntheticPage 1000).getLastD default).date = 1999 := by
    rw [hp1, getLastD_map_range' syntheticEvent default 1000 1000 (by norm_num)]
    rfl
  have h2 : getSlashingEventsLoop syntheticPage 1 2000 = some (syntheticPage 2000) :=
    hA syntheticPage 2000 0 (by rw [hp2]; simp [PAGE_SIZE])
  have h1 : getSlashingEventsLoop syntheticPage 2 1000 =
      some (syntheticPage 1000 ++ syntheticPage 2000) := by
    rw [hB syntheticPage 1000 1 (by rw [hp1]; simp [PAGE_SIZE]), hlast1]
    rw [h2]
    rfl
  have h0 : getSlashingEventsLoop syntheticPage 3 0 =
      some (syntheticPage 0 ++ (syntheticPage 1000 ++ syntheticPage 2000)) := by
    rw [show (3 : ℕ) = 2 + 1 from rfl,
      hB syntheticPage 0 2 (by rw [hp0]; simp [PAGE_SIZE]), hlast0]
    rw [h1]
    rfl
  have happend : syntheticPage 0 ++ (syntheticPage 1000 ++ syntheticPage 2000) =
      (List.range' 0 SYNTHETIC_COUNT).map syntheticEvent := by
    rw [hp0, hp1, hp2, ← List.map_append, ← List.map_append]
    have e1 : List.range' 1000 1000 ++ List.range' 2000 999 = List.range' 1000 1999 := by
      have h := List.range'_append 1000 1000 999 1
      norm_num at h
      rw [← h]
    have e2 : List.range' 0 1000 ++ List.range' 1000 1999 = List.range' 0 2999 := by
      have h := List.range'_append 0 1000 1999 1
      norm_num at h
      rw [← h]
    rw [e1, e2]
    rfl
  refine ⟨hA, hB, ?_, ?_, ?_⟩
  · rw [getSlashingEvents, h0, happend]
    have hfilter : ((List.range' 0 SYNTHETIC_COUNT).map syntheticEvent).filter
        (fun e => MIN_SLASHING_WEI ≤ e.amount) =
        (List.range' 0 SYNTHETIC_COUNT).map syntheticEvent :=
      List.filter_eq_self.mpr (by intro a ha; simp [MIN_SLASHING_WEI])
    rw [Option.map_some']
    rw [hfilter]
  · simp [SYNTHETIC_COUNT, PAGE_SIZE]
  · refine List.Nodup.map ?_ (by simp [List.nodup_range'])
    intro i j hij
    simpa [syntheticEvent] using hij

/-- Witness for C5: the stop rule fires on an empty page, and the advance
rule fires on a constant full page. -/
theorem c5_pagination_boundaries_witness :
    getSlashingEventsLoop (fun _ => []) 1 0 = some [] ∧
    getSlashingEventsLoop (fun _ => List.replicate PAGE_SIZE default) 1 0 =
      (getSlashingEventsLoop (fun _ => List.replicate PAGE_SIZE default) 0
          ((((fun _ : ℕ => List.replicate PAGE_SIZE (default : SlashingEvent)) 0).getLastD
            default).date + 1)).map
        (fun rest => (fun _ : ℕ => List.replicate PAGE_SIZE (default : SlashingEvent)) 0 ++ rest) :=
  ⟨c5_pagination_boundaries.1 (fun _ => []) 0 0 (by simp [PAGE_SIZE]),
    c5_pagination_boundaries.2.1 (fun _ => List.replicate PAGE_SIZE default) 0 0 (by simp)⟩

end OperatorRecovery
